import Mathlib

/-!
Shallow embedding of the `configparser` Go package (current version:
`configparser.go` with `ParseWithDir`, `allFilesInDirectory`,
`RetrieveConfigDirectory`), together with theorems settling the spec
claims about it.

External collaborators are modelled explicitly:
* the environment store is a function `String → Option String`
  (`os.LookupEnv`; `os.Getenv` reads a missing key as `""`);
* the command-line flag registry is modelled by the list of supplied
  `(flag name, value)` pairs, applied in order by `flagParse` the way
  `flag.Parse` invokes each registered `flag.Value.Set`; a bare boolean
  flag is represented by the pair `(name, "true")`.  The global
  `flag.CommandLine` uses the `flag.ExitOnError` policy, so a `Set`
  error or an unknown flag terminates the process (`os.Exit(2)`), which
  we record as the `Outcome.exit` outcome;
* the file system visible to `filepath.WalkDir` is a tree of `Entry`
  values, `none` standing for an absent root directory;
* `os.Open`/`io.ReadAll` in `getFileContents` is a function
  `String → ReadRes` so that the not-exist / other-error distinction of
  the source (`os.IsNotExist`) is preserved.
-/

namespace Configparser

/-- The `reflect.Kind`s supported by the binder (`reflect.String`,
`reflect.Int`, `reflect.Bool`); every other field kind is skipped. -/
inductive GoKind where
  | kString
  | kInt
  | kBool
deriving DecidableEq, Repr

/-- A scalar value stored in a record field (the storage location the
`paramPointer` of a `param` aims at). -/
inductive GoVal where
  | vstr (s : String)
  | vint (i : Int)
  | vbool (b : Bool)
deriving DecidableEq, Repr

/-- The declared kind of a stored value. -/
def GoVal.kind : GoVal → GoKind
  | .vstr _ => .kString
  | .vint _ => .kInt
  | .vbool _ => .kBool

/-- Go `strings.ToLower`, modelled character-wise (ASCII case mapping;
it agrees with Go on every string relevant to the binder's sentinel
words, whose letters are plain ASCII). -/
def goToLower (s : String) : String := ⟨s.data.map Char.toLower⟩

/-- Go `strings.ToUpper`, modelled character-wise (ASCII case
mapping). -/
def goToUpper (s : String) : String := ⟨s.data.map Char.toUpper⟩

/-- Digits of a base-10 literal, folded left as `strconv` does; `none`
when a non-digit appears. -/
def parseDigits (cs : List Char) : Option Nat :=
  cs.foldl
    (fun acc c =>
      acc.bind (fun n => if c.isDigit then some (n * 10 + (c.toNat - 48)) else none))
    (some 0)

/-- Go `strconv.Atoi` (= `ParseInt(s, 10, 0)` with 64-bit `int`): an
optional sign followed by at least one ASCII digit; values outside
`[-2^63, 2^63 - 1]` are range errors.  `none` models a non-nil error. -/
def Atoi (s : String) : Option Int :=
  match s.toList with
  | [] => none
  | '+' :: rest =>
    match rest with
    | [] => none
    | _ => (parseDigits rest).bind
        (fun n => if n ≤ 9223372036854775807 then some (Int.ofNat n) else none)
  | '-' :: rest =>
    match rest with
    | [] => none
    | _ => (parseDigits rest).bind
        (fun n => if n ≤ 9223372036854775808 then some (-(Int.ofNat n)) else none)
  | cs => (parseDigits cs).bind
      (fun n => if n ≤ 9223372036854775807 then some (Int.ofNat n) else none)

/-- One entry of the process-wide `params` slice: the per-field binding
built by the first loop of `ParseWithDir`.  The `paramPointer` target is
modelled by carrying the field's stored value inside the binding. -/
structure Param where
  filename : String
  envKey : String
  flagKey : String
  value : GoVal
  mandatory : Bool
  isSet : Bool
deriving DecidableEq, Repr

/-- The error text of the integer-coercion failure in `setParam`. -/
def mustBeIntegerMsg (configType keyName val : String) : String :=
  configType ++ " " ++ keyName ++ " must be an integer - instead it is: " ++ val

/-- `(*param).setParam` of the source.  The Go method mutates through a
pointer receiver and can also return an error, so we return the updated
binding together with the optional error: note that for every supported
kind the source assigns `p.isSet = true` before attempting the
conversion, so the update survives even a failed `strconv.Atoi`.
The final "unknown type" branch of the source is unreachable here
because `GoVal` has exactly the three kinds `params` are built from. -/
def setParam (p : Param) (val configType keyName : String) : Param × Option String :=
  match p.value with
  | .vstr _ => ({ p with isSet := true, value := .vstr val }, none)
  | .vint _ =>
    match Atoi val with
    | none => ({ p with isSet := true }, some (mustBeIntegerMsg configType keyName val))
    | some i => ({ p with isSet := true, value := .vint i }, none)
  | .vbool _ =>
    ({ p with
        isSet := true
        value := .vbool (!(goToLower val = "0" || goToLower val = "f" ||
          goToLower val = "false" || goToLower val = "n" || goToLower val = "no")) },
      none)

/-- The value a successful coercion of `s` at kind `k` produces; the
observable content of `setParam` used when stating properties. -/
def coerceValue (k : GoKind) (s : String) : Option GoVal :=
  match k with
  | .kString => some (.vstr s)
  | .kInt => (Atoi s).map .vint
  | .kBool => some (.vbool (!(goToLower s = "0" || goToLower s = "f" ||
      goToLower s = "false" || goToLower s = "n" || goToLower s = "no")))

/-- One field of the record handed to `ParseWithDir`, as seen through
`reflect`: its name, its stored value (`none` for a field of an
unsupported kind, which the binder skips), and its struct tags.  The
`file`/`env`/`flag` tags are read with `Tag.Get` (absent reads as `""`),
`default` and `mandatory` with `Tag.Lookup` (presence matters). -/
structure Field where
  name : String
  value : Option GoVal
  fileTag : String
  envTag : String
  flagTag : String
  defaultTag : Option String
  mandatoryTag : Bool
deriving DecidableEq, Repr

/-- Body of the first loop of `ParseWithDir` for one field: skip
unsupported kinds, derive the lookup keys, build the `param`, and apply
the declared default through `p.Set` (whose error is discarded). -/
def discoverField (dir : String) (f : Field) : Option Param :=
  match f.value with
  | none => none
  | some v =>
    let filename := if dir ≠ "" then (if f.fileTag = "" then goToLower f.name else f.fileTag)
      else ""
    let envkey := if f.envTag = "" then goToUpper f.name else f.envTag
    let flagkey := if f.flagTag = "" then goToLower f.name else f.flagTag
    let p : Param :=
      { filename := filename, envKey := envkey, flagKey := flagkey,
        value := v, mandatory := f.mandatoryTag, isSet := false }
    some (match f.defaultTag with
      | some d => (setParam p d "command line flag" flagkey).1
      | none => p)

/-- The first loop of `ParseWithDir`: the `params` slice after field
discovery, default application and flag registration. -/
def discoverParams (dir : String) (fields : List Field) : List Param :=
  fields.filterMap (discoverField dir)

/-- The flag registry applying one supplied command-line value to the
registered flag of that name (`flag.Value.Set`, i.e. `(*param).Set`).
The boolean is `false` when the registry fails: the flag is unknown or
`Set` returned an error. -/
def setFlagValue (ps : List Param) (k v : String) : List Param × Bool :=
  match ps with
  | [] => ([], false)
  | p :: rest =>
    if p.flagKey = k then
      let r := setParam p v "command line flag" k
      (r.1 :: rest, r.2.isNone)
    else
      let r := setFlagValue rest k v
      (p :: r.1, r.2)

/-- `flag.Parse()` on the default `flag.CommandLine`: supplied values
are applied in command-line order; on the first registry failure the
`flag.ExitOnError` policy terminates the process, which we record by
returning `false` (together with the bindings mutated so far). -/
def flagParse (args : List (String × String)) (ps : List Param) : List Param × Bool :=
  match args with
  | [] => (ps, true)
  | (k, v) :: rest =>
    let r := setFlagValue ps k v
    if r.2 then flagParse rest r.1 else (r.1, false)

/-- A node of the configuration-directory tree walked by
`filepath.WalkDir`: a regular file with contents, or a subdirectory. -/
inductive Entry where
  | file (name contents : String)
  | dir (name : String) (entries : List Entry)
deriving Repr

/-- `filepath.Join` for the paths built during the walk. -/
def joinPath (a b : String) : String := a ++ "/" ++ b

/-- Go map insertion `files[k] = v`: a later insertion of the same key
overwrites the earlier one. -/
def mapInsert (m : List (String × String)) (k v : String) : List (String × String) :=
  (m.filter (fun e => e.1 ≠ k)) ++ [(k, v)]

/-- Go map lookup `v, ok := m[k]`. -/
def mapLookup (m : List (String × String)) (k : String) : Option String :=
  (m.find? (fun e => e.1 = k)).map (fun e => e.2)

/-- The `filepath.WalkDir` traversal with the callback of
`allFilesInDirectory`: directory entries are skipped (`IsRegular` is
false), every regular file is inserted into the map under its base name
(`files[entry.Name()] = path`), recursively. -/
def walkEntries (base : String) (es : List Entry) (acc : List (String × String)) :
    List (String × String) :=
  match es with
  | [] => acc
  | .file n _ :: rest => walkEntries base rest (mapInsert acc n (joinPath base n))
  | .dir n sub :: rest => walkEntries base rest (walkEntries (joinPath base n) sub acc)

/-- `allFilesInDirectory` of the source.  An empty `dir` returns the
empty map.  A non-empty but absent root makes `filepath.WalkDir` invoke
the callback with a nil `fs.DirEntry` and the stat error; the callback
immediately calls `entry.Type()` on that nil interface, so the process
dies of a nil dereference (and any traversal error that did reach the
`err != nil` check would hit `log.Fatalf`).  Both terminations are
modelled by `none`. -/
def allFilesInDirectory (dir : String) (root : Option (List Entry)) :
    Option (List (String × String)) :=
  if dir = "" then some []
  else
    match root with
    | none => none
    | some es => some (walkEntries dir es [])

/-- Result of `getFileContents` (`os.Open` + `io.ReadAll`): contents,
an `os.IsNotExist` error, or any other read error. -/
inductive ReadRes where
  | ok (contents : String)
  | notExist
  | failed (msg : String)
deriving DecidableEq, Repr

/-- The environment-variable half of the second loop body:
`os.LookupEnv` and, when the key is present, `setParam`. -/
def envStep (env : String → Option String) (p : Param) : Param × Option String :=
  match env p.envKey with
  | none => (p, none)
  | some v => setParam p v "environment variable" p.envKey

/-- Body of the second loop of `ParseWithDir` for one binding: files
first (`continue` on success, abort on a coercion error or a
non-not-exist read error), falling back to the environment variable. -/
def resolveParam (cf : List (String × String)) (rf : String → ReadRes)
    (env : String → Option String) (p : Param) : Param × Option String :=
  if p.filename ≠ "" then
    match mapLookup cf p.filename with
    | some path =>
      match rf path with
      | .ok contents => setParam p contents "file" p.filename
      | .notExist => envStep env p
      | .failed msg => (p, some msg)
    | none => envStep env p
  else envStep env p

/-- The second loop of `ParseWithDir`: each binding in order; the first
error aborts the loop (`return err`), leaving the remaining bindings
untouched. -/
def resolveParams (cf : List (String × String)) (rf : String → ReadRes)
    (env : String → Option String) : List Param → List Param × Option String
  | [] => ([], none)
  | p :: rest =>
    let r := resolveParam cf rf env p
    match r.2 with
    | some e => (r.1 :: rest, some e)
    | none =>
      let rr := resolveParams cf rf env rest
      (r.1 :: rr.1, rr.2)

/-- `p.mandatory && !p.isSet`: the binding is counted as a missing
mandatory parameter by the third loop. -/
def isMissing (p : Param) : Bool := p.mandatory && !p.isSet

/-- The line printed to `flag.CommandLine.Output()` for one missing
mandatory parameter. -/
def missingLine (p : Param) : String :=
  "Mandatory flag -" ++ p.flagKey ++ " (or environment variable " ++ p.envKey ++
    ") does not exist."

/-- How one invocation of the binder ends: a normal return (`nil`), a
returned error, or process termination inside the flag registry or the
directory walk (`os.Exit` / nil dereference / `log.Fatalf`), after
which `ParseWithDir` never returns. -/
inductive Outcome where
  | ok
  | err (msg : String)
  | exit
deriving DecidableEq, Repr

/-- Everything observable about one `ParseWithDir` invocation:
the outcome, the final contents of the caller's record (the bindings,
which stay mutated on every path), the process-wide `params` slice at
the moment the invocation ends, the human-readable lines written for
missing mandatory parameters, and whether `flag.Usage()` was called. -/
structure BindResult where
  outcome : Outcome
  bound : List Param
  globalParams : List Param
  lines : List String
  usageCalled : Bool
deriving DecidableEq, Repr

/-- The third loop of `ParseWithDir` and the returns following it: count
the missing mandatory parameters, print one line each, clear the global
`params` slice, and either fail with the count or return `nil`. -/
def bindAfterResolution (ps2 : List Param) : BindResult :=
  let missing := ps2.filter isMissing
  if missing.length = 0 then
    { outcome := .ok, bound := ps2, globalParams := [],
      lines := missing.map missingLine, usageCalled := false }
  else
    { outcome := .err (toString missing.length ++ " mandatory parameters missing"),
      bound := ps2, globalParams := [],
      lines := missing.map missingLine, usageCalled := true }

/-- `ParseWithDir` of the source, stage by stage: directory traversal,
field discovery with default application and flag registration, flag
parsing, file/environment resolution, and the mandatory check.  The
early `return err` paths of the resolution loop leave the global
`params` slice as it stands; only the mandatory-check path reassigns
`params = []` before returning. -/
def ParseWithDir (fields : List Field) (dir : String) (root : Option (List Entry))
    (rf : String → ReadRes) (args : List (String × String))
    (env : String → Option String) : BindResult :=
  match allFilesInDirectory dir root with
  | none =>
    { outcome := .exit, bound := [], globalParams := [], lines := [], usageCalled := false }
  | some cf =>
    match flagParse args (discoverParams dir fields) with
    | (ps1, false) =>
      { outcome := .exit, bound := ps1, globalParams := ps1, lines := [],
        usageCalled := false }
    | (ps1, true) =>
      match resolveParams cf rf env ps1 with
      | (ps2, some e) =>
        { outcome := .err e, bound := ps2, globalParams := ps2, lines := [],
          usageCalled := false }
      | (ps2, none) => bindAfterResolution ps2

/-- Evolution of one binding across a run: the lookup keys, the
mandatory mark and the declared kind never change, and `isSet` is never
reset once true.  Every mutation the binder performs preserves this. -/
def paramEvolves (p q : Param) : Prop :=
  q.filename = p.filename ∧ q.envKey = p.envKey ∧ q.flagKey = p.flagKey ∧
    q.mandatory = p.mandatory ∧ q.value.kind = p.value.kind ∧
    (p.isSet = true → q.isSet = true)

/-- Modelled from the spec's contract for the traversal service ("a
mapping from file base name to full path, covering regular files only,
recursively"): the (base name, full path) pairs of all regular files in
a tree, in visit order.  Used only to state what the walk covers. -/
def specTraversalFiles (base : String) : List Entry → List (String × String)
  | [] => []
  | .file n _ :: rest => (n, joinPath base n) :: specTraversalFiles base rest
  | .dir n sub :: rest =>
    specTraversalFiles (joinPath base n) sub ++ specTraversalFiles base rest

/-- `RetrieveConfigDirectory` of the source.  `env` is `os.Getenv`
(a missing key reads as `""`); `flags` abstracts the registry after
`flag.StringVar(&val, flagKey, defaultval, "")` and `flag.Parse()`:
`flags flagKey` is the supplied command-line value, if any. -/
def RetrieveConfigDirectory (env : String → Option String)
    (flags : String → Option String) (envKey flagKey defaultval : String) : String :=
  if 0 < envKey.length then
    let val := (env envKey).getD ""
    if val.length = 0 then defaultval else val
  else if 0 < flagKey.length then
    (flags flagKey).getD defaultval
  else defaultval

/-! ### Lemmas about `setParam` -/

theorem setParam_isSet (p : Param) (val t k : String) :
    ((setParam p val t k).1).isSet = true := by
  obtain ⟨fn, ek, fk, v, m, s⟩ := p
  cases v with
  | vstr a => rfl
  | vint a => unfold setParam; cases Atoi val <;> rfl
  | vbool a => rfl

theorem setParam_evolves (p : Param) (val t k : String) :
    paramEvolves p (setParam p val t k).1 := by
  obtain ⟨fn, ek, fk, v, m, s⟩ := p
  cases v with
  | vstr a => exact ⟨rfl, rfl, rfl, rfl, rfl, fun _ => rfl⟩
  | vint a =>
    unfold setParam
    cases Atoi val <;> exact ⟨rfl, rfl, rfl, rfl, rfl, fun _ => rfl⟩
  | vbool a => exact ⟨rfl, rfl, rfl, rfl, rfl, fun _ => rfl⟩

theorem setParam_eq_of_coerce (p : Param) (val t k : String) (v : GoVal)
    (h : coerceValue p.value.kind val = some v) :
    setParam p val t k = ({ p with isSet := true, value := v }, none) := by
  obtain ⟨fn, ek, fk, pv, m, s⟩ := p
  cases pv with
  | vstr a =>
    simp only [coerceValue, GoVal.kind, Option.some.injEq] at h
    subst h; rfl
  | vint a =>
    simp only [coerceValue, GoVal.kind, Option.map_eq_some'] at h
    obtain ⟨i, hi, rfl⟩ := h
    simp [setParam, hi]
  | vbool a =>
    simp only [coerceValue, GoVal.kind, Option.some.injEq] at h
    subst h; rfl

theorem setParam_eq_of_coerce_none (p : Param) (val t k : String)
    (h : coerceValue p.value.kind val = none) :
    setParam p val t k = ({ p with isSet := true }, some (mustBeIntegerMsg t k val)) := by
  obtain ⟨fn, ek, fk, pv, m, s⟩ := p
  cases pv with
  | vstr a => simp [coerceValue, GoVal.kind] at h
  | vint a =>
    simp only [coerceValue, GoVal.kind, Option.map_eq_none'] at h
    simp [setParam, h]
  | vbool a => simp [coerceValue, GoVal.kind] at h

theorem coerce_of_setParam_none (p : Param) (val t k : String)
    (h : (setParam p val t k).2 = none) :
    coerceValue p.value.kind val = some ((setParam p val t k).1.value) := by
  obtain ⟨fn, ek, fk, pv, m, s⟩ := p
  cases pv with
  | vstr a => rfl
  | vint a =>
    simp only [setParam, coerceValue, GoVal.kind] at h ⊢
    cases hA : Atoi val with
    | none => simp [hA] at h
    | some i => simp [hA]
  | vbool a => rfl

/-! ### Evolution plumbing -/

theorem paramEvolves_refl (p : Param) : paramEvolves p p :=
  ⟨rfl, rfl, rfl, rfl, rfl, fun h => h⟩

theorem paramEvolves_trans {p q r : Param} (h1 : paramEvolves p q)
    (h2 : paramEvolves q r) : paramEvolves p r :=
  ⟨h2.1.trans h1.1, h2.2.1.trans h1.2.1, h2.2.2.1.trans h1.2.2.1,
    h2.2.2.2.1.trans h1.2.2.2.1, h2.2.2.2.2.1.trans h1.2.2.2.2.1,
    fun hs => h2.2.2.2.2.2 (h1.2.2.2.2.2 hs)⟩

theorem forall2_evolves_refl (l : List Param) : List.Forall₂ paramEvolves l l := by
  induction l with
  | nil => exact .nil
  | cons p rest ih => exact .cons (paramEvolves_refl p) ih

theorem forall2_evolves_trans : ∀ {l1 l2 l3 : List Param},
    List.Forall₂ paramEvolves l1 l2 → List.Forall₂ paramEvolves l2 l3 →
    List.Forall₂ paramEvolves l1 l3 := by
  intro l1 l2 l3 h1
  induction h1 generalizing l3 with
  | nil => intro h2; cases h2; exact .nil
  | cons hpq _ ih =>
    intro h2
    cases h2 with
    | cons hqr h2 => exact .cons (paramEvolves_trans hpq hqr) (ih h2)

theorem forall2_getElem? {R : Param → Param → Prop} :
    ∀ {l1 l2 : List Param}, List.Forall₂ R l1 l2 → ∀ {i : Nat} {a : Param},
      l1[i]? = some a → ∃ b, l2[i]? = some b ∧ R a b := by
  intro l1 l2 h
  induction h with
  | nil => intro i a ha; simp at ha
  | @cons p q l1t l2t hR _ ih =>
    intro i a ha
    cases i with
    | zero =>
      simp only [List.getElem?_cons_zero, Option.some.injEq] at ha
      subst ha
      exact ⟨q, by simp, hR⟩
    | succ n =>
      simp only [List.getElem?_cons_succ] at ha ⊢
      exact ih ha

/-! ### Lemmas about the flag-parsing stage -/

theorem setFlagValue_evolves (ps : List Param) (k v : String) :
    List.Forall₂ paramEvolves ps (setFlagValue ps k v).1 := by
  induction ps with
  | nil => exact .nil
  | cons p rest ih =>
    unfold setFlagValue
    by_cases h : p.flagKey = k
    · simp only [h, if_true]
      exact .cons (setParam_evolves p v "command line flag" k) (forall2_evolves_refl rest)
    · simp only [h, if_false]
      exact .cons (paramEvolves_refl p) ih

theorem flagParse_evolves (args : List (String × String)) (ps : List Param) :
    List.Forall₂ paramEvolves ps (flagParse args ps).1 := by
  induction args generalizing ps with
  | nil => exact forall2_evolves_refl ps
  | cons kv rest ih =>
    obtain ⟨k, v⟩ := kv
    unfold flagParse
    cases hs : (setFlagValue ps k v).2 with
    | false => simp only [hs, if_false]; exact setFlagValue_evolves ps k v
    | true =>
      simp only [hs, if_true]
      exact forall2_evolves_trans (setFlagValue_evolves ps k v) (ih _)

theorem setFlagValue_keysKinds (ps : List Param) (k v : String) :
    ((setFlagValue ps k v).1).map (fun p => (p.flagKey, p.value.kind)) =
      ps.map (fun p => (p.flagKey, p.value.kind)) := by
  induction ps with
  | nil => rfl
  | cons p rest ih =>
    unfold setFlagValue
    by_cases h : p.flagKey = k
    · simp only [h, if_true, List.map_cons]
      have he := setParam_evolves p v "command line flag" k
      rw [List.cons.injEq, Prod.mk.injEq]
      exact ⟨⟨he.2.2.1.trans h, he.2.2.2.2.1⟩, rfl⟩
    · simp only [h, if_false, List.map_cons]
      rw [List.cons.injEq]
      exact ⟨rfl, ih⟩

theorem setFlagValue_int_fail (ps : List Param) (k v : String)
    (hmem : ∃ p ∈ ps, p.flagKey = k)
    (hkind : ∀ p ∈ ps, p.flagKey = k → p.value.kind = GoKind.kInt)
    (hA : Atoi v = none) :
    (setFlagValue ps k v).2 = false := by
  induction ps with
  | nil => simp at hmem
  | cons p rest ih =>
    unfold setFlagValue
    by_cases h : p.flagKey = k
    · simp only [h, if_true]
      have hk : p.value.kind = GoKind.kInt := hkind p (by simp) h
      have hcoerce : coerceValue p.value.kind v = none := by
        rw [hk]; simp [coerceValue, hA]
      rw [setParam_eq_of_coerce_none p v "command line flag" k hcoerce]
      rfl
    · simp only [h, if_false]
      refine ih ?_ ?_
      · obtain ⟨q, hq, hqk⟩ := hmem
        rcases List.mem_cons.mp hq with rfl | hq2
        · exact absurd hqk h
        · exact ⟨q, hq2, hqk⟩
      · intro q hq hqk
        exact hkind q (List.mem_cons_of_mem p hq) hqk

theorem keysKinds_exists_transport {ps qs : List Param}
    (h : qs.map (fun p => (p.flagKey, p.value.kind)) =
      ps.map (fun p => (p.flagKey, p.value.kind)))
    {k : String} (hmem : ∃ p ∈ ps, p.flagKey = k) : ∃ p ∈ qs, p.flagKey = k := by
  obtain ⟨p, hp, hpk⟩ := hmem
  have : (p.flagKey, p.value.kind) ∈ qs.map (fun p => (p.flagKey, p.value.kind)) := by
    rw [h]; exact List.mem_map_of_mem _ hp
  obtain ⟨q, hq, hqe⟩ := List.mem_map.mp this
  exact ⟨q, hq, by rw [(Prod.mk.injEq _ _ _ _).mp hqe |>.1, hpk]⟩

theorem keysKinds_forall_transport {ps qs : List Param}
    (h : qs.map (fun p => (p.flagKey, p.value.kind)) =
      ps.map (fun p => (p.flagKey, p.value.kind)))
    {k : String} (hkind : ∀ p ∈ ps, p.flagKey = k → p.value.kind = GoKind.kInt) :
    ∀ p ∈ qs, p.flagKey = k → p.value.kind = GoKind.kInt := by
  intro q hq hqk
  have : (q.flagKey, q.value.kind) ∈ ps.map (fun p => (p.flagKey, p.value.kind)) := by
    rw [← h]; exact List.mem_map_of_mem _ hq
  obtain ⟨p, hp, hpe⟩ := List.mem_map.mp this
  have h1 := (Prod.mk.injEq _ _ _ _).mp hpe
  rw [← h1.2]
  exact hkind p hp (h1.1.trans hqk)

theorem flagParse_int_fail (args : List (String × String)) (ps : List Param)
    (k v : String) (hin : (k, v) ∈ args)
    (hmem : ∃ p ∈ ps, p.flagKey = k)
    (hkind : ∀ p ∈ ps, p.flagKey = k → p.value.kind = GoKind.kInt)
    (hA : Atoi v = none) :
    (flagParse args ps).2 = false := by
  induction args generalizing ps with
  | nil => simp at hin
  | cons kv rest ih =>
    obtain ⟨k2, v2⟩ := kv
    unfold flagParse
    rcases List.mem_cons.mp hin with heq | hin2
    · rw [Prod.mk.injEq] at heq
      obtain ⟨rfl, rfl⟩ := heq
      have hsf := setFlagValue_int_fail ps k v hmem hkind hA
      simp [hsf]
    · cases hs : (setFlagValue ps k2 v2).2 with
      | false => simp [hs]
      | true =>
        simp only [hs, if_true]
        have hmap := setFlagValue_keysKinds ps k2 v2
        exact ih _ hin2 (keysKinds_exists_transport hmap hmem)
          (keysKinds_forall_transport hmap hkind)

/-! ### Lemmas about the resolution stage -/

theorem envStep_evolves (env : String → Option String) (p : Param) :
    paramEvolves p (envStep env p).1 := by
  unfold envStep
  cases env p.envKey with
  | none => exact paramEvolves_refl p
  | some v => exact setParam_evolves p v "environment variable" p.envKey

theorem resolveParam_evolves (cf : List (String × String)) (rf : String → ReadRes)
    (env : String → Option String) (p : Param) :
    paramEvolves p (resolveParam cf rf env p).1 := by
  unfold resolveParam
  split
  · split
    · split
      · exact setParam_evolves p _ "file" p.filename
      · exact envStep_evolves env p
      · exact paramEvolves_refl p
    · exact envStep_evolves env p
  · exact envStep_evolves env p

theorem resolveParams_evolves (cf : List (String × String)) (rf : String → ReadRes)
    (env : String → Option String) (l : List Param) :
    List.Forall₂ paramEvolves l (resolveParams cf rf env l).1 := by
  induction l with
  | nil => exact .nil
  | cons p rest ih =>
    unfold resolveParams
    cases he : (resolveParam cf rf env p).2 with
    | some e =>
      simp only [he]
      exact .cons (resolveParam_evolves cf rf env p) (forall2_evolves_refl rest)
    | none =>
      simp only [he]
      exact .cons (resolveParam_evolves cf rf env p) ih

theorem resolveParams_none_map (cf : List (String × String)) (rf : String → ReadRes)
    (env : String → Option String) (l : List Param)
    (h : (resolveParams cf rf env l).2 = none) :
    (resolveParams cf rf env l).1 = l.map (fun p => (resolveParam cf rf env p).1) ∧
      ∀ p ∈ l, (resolveParam cf rf env p).2 = none := by
  induction l with
  | nil => exact ⟨rfl, by simp⟩
  | cons p rest ih =>
    unfold resolveParams at h ⊢
    cases he : (resolveParam cf rf env p).2 with
    | some e => simp [he] at h
    | none =>
      simp only [he] at h ⊢
      obtain ⟨h1, h2⟩ := ih h
      refine ⟨by simp [h1], ?_⟩
      intro q hq
      rcases List.mem_cons.mp hq with rfl | hq2
      · exact he
      · exact h2 q hq2

theorem resolveParams_err_at (cf : List (String × String)) (rf : String → ReadRes)
    (env : String → Option String) :
    ∀ (l : List Param) (i : Nat) (p : Param) (e : String), l[i]? = some p →
      (∀ j q, j < i → l[j]? = some q → (resolveParam cf rf env q).2 = none) →
      (resolveParam cf rf env p).2 = some e →
      (resolveParams cf rf env l).2 = some e := by
  intro l
  induction l with
  | nil => intro i p e hp; simp at hp
  | cons a rest ih =>
    intro i p e hp hbefore herr
    unfold resolveParams
    cases i with
    | zero =>
      simp only [List.getElem?_cons_zero, Option.some.injEq] at hp
      subst hp
      simp only [herr]
    | succ n =>
      have ha : (resolveParam cf rf env a).2 = none :=
        hbefore 0 a (Nat.succ_pos n) (by simp)
      simp only [ha]
      simp only [List.getElem?_cons_succ] at hp
      exact ih n p e hp
        (fun j q hj hq => hbefore (j + 1) q (Nat.succ_lt_succ hj) (by simpa using hq))
        herr

theorem resolveParams_ne_nil_of_err (cf : List (String × String)) (rf : String → ReadRes)
    (env : String → Option String) (l : List Param) (e : String)
    (h : (resolveParams cf rf env l).2 = some e) :
    (resolveParams cf rf env l).1 ≠ [] := by
  cases l with
  | nil => simp [resolveParams] at h
  | cons p rest =>
    unfold resolveParams
    cases he : (resolveParam cf rf env p).2 <;> simp [he]

/-! ### Path characterizations of `ParseWithDir` -/

theorem bindAfterResolution_bound (ps2 : List Param) :
    (bindAfterResolution ps2).bound = ps2 := by
  by_cases h : (List.filter isMissing ps2).length = 0
  · simp [bindAfterResolution, h]
  · simp [bindAfterResolution, h]

theorem bindAfterResolution_global (ps2 : List Param) :
    (bindAfterResolution ps2).globalParams = [] := by
  by_cases h : (List.filter isMissing ps2).length = 0
  · simp [bindAfterResolution, h]
  · simp [bindAfterResolution, h]

theorem parseWithDir_exit_of_flagFail (fields : List Field) (dir : String)
    (root : Option (List Entry)) (rf : String → ReadRes)
    (args : List (String × String)) (env : String → Option String)
    (cf : List (String × String)) (ps1 : List Param)
    (hcf : allFilesInDirectory dir root = some cf)
    (hfp : flagParse args (discoverParams dir fields) = (ps1, false)) :
    ParseWithDir fields dir root rf args env =
      { outcome := .exit, bound := ps1, globalParams := ps1, lines := [],
        usageCalled := false } := by
  unfold ParseWithDir
  simp only [hcf, hfp]

theorem parseWithDir_err_of_resolveErr (fields : List Field) (dir : String)
    (root : Option (List Entry)) (rf : String → ReadRes)
    (args : List (String × String)) (env : String → Option String)
    (cf : List (String × String)) (ps1 ps2 : List Param) (e : String)
    (hcf : allFilesInDirectory dir root = some cf)
    (hfp : flagParse args (discoverParams dir fields) = (ps1, true))
    (hrr : resolveParams cf rf env ps1 = (ps2, some e)) :
    ParseWithDir fields dir root rf args env =
      { outcome := .err e, bound := ps2, globalParams := ps2, lines := [],
        usageCalled := false } := by
  unfold ParseWithDir
  simp only [hcf, hfp, hrr]

theorem parseWithDir_of_resolved (fields : List Field) (dir : String)
    (root : Option (List Entry)) (rf : String → ReadRes)
    (args : List (String × String)) (env : String → Option String)
    (cf : List (String × String)) (ps1 ps2 : List Param)
    (hcf : allFilesInDirectory dir root = some cf)
    (hfp : flagParse args (discoverParams dir fields) = (ps1, true))
    (hrr : resolveParams cf rf env ps1 = (ps2, none)) :
    ParseWithDir fields dir root rf args env = bindAfterResolution ps2 := by
  unfold ParseWithDir
  simp only [hcf, hfp, hrr]

theorem parseWithDir_bound_evolves (fields : List Field) (dir : String)
    (root : Option (List Entry)) (rf : String → ReadRes)
    (args : List (String × String)) (env : String → Option String)
    (cf : List (String × String))
    (hcf : allFilesInDirectory dir root = some cf) :
    List.Forall₂ paramEvolves (discoverParams dir fields)
      (ParseWithDir fields dir root rf args env).bound := by
  rcases hfp : flagParse args (discoverParams dir fields) with ⟨ps1, b⟩
  have h1 : List.Forall₂ paramEvolves (discoverParams dir fields) ps1 := by
    have h := flagParse_evolves args (discoverParams dir fields)
    rwa [hfp] at h
  cases b with
  | false =>
    rw [parseWithDir_exit_of_flagFail fields dir root rf args env cf ps1 hcf hfp]
    exact h1
  | true =>
    rcases hrr : resolveParams cf rf env ps1 with ⟨ps2, eo⟩
    have h2 : List.Forall₂ paramEvolves ps1 ps2 := by
      have h := resolveParams_evolves cf rf env ps1
      rwa [hrr] at h
    cases eo with
    | some e =>
      rw [parseWithDir_err_of_resolveErr fields dir root rf args env cf ps1 ps2 e hcf
        hfp hrr]
      exact forall2_evolves_trans h1 h2
    | none =>
      rw [parseWithDir_of_resolved fields dir root rf args env cf ps1 ps2 hcf hfp hrr,
        bindAfterResolution_bound]
      exact forall2_evolves_trans h1 h2

/-! ### Lemmas about the directory walk -/

theorem mem_of_mem_mapInsert {m : List (String × String)} {k v : String}
    {kv : String × String} (h : kv ∈ mapInsert m k v) : kv ∈ m ∨ kv = (k, v) := by
  unfold mapInsert at h
  rcases List.mem_append.mp h with h1 | h1
  · exact Or.inl (List.mem_of_mem_filter h1)
  · simp at h1
    exact Or.inr h1

theorem mapInsert_mem_self (m : List (String × String)) (k v : String) :
    (k, v) ∈ mapInsert m k v :=
  List.mem_append_right _ (by simp)

theorem mapInsert_mem_key {m : List (String × String)} {k2 : String}
    (k v : String) (h : ∃ p, (k2, p) ∈ m) : ∃ p, (k2, p) ∈ mapInsert m k v := by
  by_cases hk : k2 = k
  · subst hk
    exact ⟨v, mapInsert_mem_self m k2 v⟩
  · obtain ⟨p, hp⟩ := h
    refine ⟨p, List.mem_append_left _ (List.mem_filter.mpr ⟨hp, ?_⟩)⟩
    simp [hk]

theorem walkEntries_mem :
    ∀ (base : String) (es : List Entry) (acc : List (String × String)),
      ∀ kv ∈ walkEntries base es acc, kv ∈ acc ∨ kv ∈ specTraversalFiles base es := by
  intro base es acc
  induction base, es, acc using walkEntries.induct with
  | case1 base acc =>
    intro kv h
    simp only [walkEntries] at h
    exact Or.inl h
  | case2 base acc n c rest ih =>
    intro kv h
    simp only [walkEntries] at h
    rcases ih kv h with h1 | h1
    · rcases mem_of_mem_mapInsert h1 with h2 | h2
      · exact Or.inl h2
      · right
        simp [specTraversalFiles, h2]
    · right
      simp [specTraversalFiles, h1]
  | case3 base acc n sub rest ih1 ih2 =>
    intro kv h
    simp only [walkEntries] at h
    rcases ih2 kv h with h1 | h1
    · rcases ih1 kv h1 with h2 | h2
      · exact Or.inl h2
      · right
        simp only [specTraversalFiles, List.mem_append]
        exact Or.inl h2
    · right
      simp only [specTraversalFiles, List.mem_append]
      exact Or.inr h1

theorem walkEntries_covers :
    ∀ (base : String) (es : List Entry) (acc : List (String × String)) (k : String),
      ((∃ p, (k, p) ∈ acc) ∨ (∃ p, (k, p) ∈ specTraversalFiles base es)) →
      ∃ p, (k, p) ∈ walkEntries base es acc := by
  intro base es acc
  induction base, es, acc using walkEntries.induct with
  | case1 base acc =>
    intro k h
    simp only [walkEntries]
    rcases h with h | h
    · exact h
    · simp [specTraversalFiles] at h
  | case2 base acc n c rest ih =>
    intro k h
    simp only [walkEntries]
    apply ih
    rcases h with h | ⟨p, hp⟩
    · exact Or.inl (mapInsert_mem_key n (joinPath base n) h)
    · simp only [specTraversalFiles, List.mem_cons] at hp
      rcases hp with h2 | h2
      · left
        rw [Prod.mk.injEq] at h2
        rw [h2.1]
        exact ⟨joinPath base n, mapInsert_mem_self acc n (joinPath base n)⟩
      · exact Or.inr ⟨p, h2⟩
  | case3 base acc n sub rest ih1 ih2 =>
    intro k h
    simp only [walkEntries]
    apply ih2
    rcases h with h | ⟨p, hp⟩
    · exact Or.inl (ih1 k (Or.inl h))
    · simp only [specTraversalFiles, List.mem_append] at hp
      rcases hp with h2 | h2
      · exact Or.inl (ih1 k (Or.inr ⟨p, h2⟩))
      · exact Or.inr ⟨p, h2⟩

/-! ### Branch lemmas for one resolution step -/

theorem envStep_some (env : String → Option String) (p : Param) (v : String)
    (h : env p.envKey = some v) :
    envStep env p = setParam p v "environment variable" p.envKey := by
  unfold envStep
  rw [h]

theorem resolveParam_file (cf : List (String × String)) (rf : String → ReadRes)
    (env : String → Option String) (p : Param) (path contents : String)
    (hfn : p.filename ≠ "") (hlook : mapLookup cf p.filename = some path)
    (hread : rf path = ReadRes.ok contents) :
    resolveParam cf rf env p = setParam p contents "file" p.filename := by
  unfold resolveParam
  simp [hfn, hlook, hread]

theorem resolveParam_envStep (cf : List (String × String)) (rf : String → ReadRes)
    (env : String → Option String) (p : Param)
    (h : p.filename = "" ∨ mapLookup cf p.filename = none ∨
      (∃ path, mapLookup cf p.filename = some path ∧ rf path = ReadRes.notExist)) :
    resolveParam cf rf env p = envStep env p := by
  unfold resolveParam
  by_cases hA : p.filename = ""
  · simp [hA]
  · rcases h with h | h | ⟨path, h1, h2⟩
    · exact absurd h hA
    · simp [hA, h]
    · simp [hA, h1, h2]

/-! ### Discovery lemma -/

theorem discoverField_eq (dir : String) (f : Field) (v : GoVal)
    (hv : f.value = some v) :
    ∃ p, discoverField dir f = some p ∧
      p.filename = (if dir ≠ "" then (if f.fileTag = "" then goToLower f.name else f.fileTag)
        else "") ∧
      p.envKey = (if f.envTag = "" then goToUpper f.name else f.envTag) ∧
      p.flagKey = (if f.flagTag = "" then goToLower f.name else f.flagTag) ∧
      p.mandatory = f.mandatoryTag ∧
      p.value.kind = v.kind ∧
      (f.defaultTag = none → p.isSet = false) ∧
      (∀ d, f.defaultTag = some d → p.isSet = true) := by
  unfold discoverField
  rw [hv]
  cases hd : f.defaultTag with
  | none =>
    refine ⟨_, rfl, rfl, rfl, rfl, rfl, rfl, fun _ => rfl, ?_⟩
    intro d hd2
    exact Option.noConfusion hd2
  | some d =>
    simp only
    set p0 : Param :=
      { filename := if dir ≠ "" then (if f.fileTag = "" then goToLower f.name else f.fileTag)
          else ""
        envKey := if f.envTag = "" then goToUpper f.name else f.envTag
        flagKey := if f.flagTag = "" then goToLower f.name else f.flagTag
        value := v, mandatory := f.mandatoryTag, isSet := false } with hp0
    have he := setParam_evolves p0 d "command line flag" p0.flagKey
    refine ⟨_, rfl, ?u1, ?u2, ?u3, ?u4, ?u5, ?u6, ?u7⟩
    case u1 => rw [he.1]
    case u2 => rw [he.2.1]
    case u3 => rw [he.2.2.1]
    case u4 => rw [he.2.2.2.1]
    case u5 => rw [he.2.2.2.2.1]
    case u6 =>
      intro hd2
      exact Option.noConfusion hd2
    case u7 =>
      intro d2 _
      exact setParam_isSet p0 d "command line flag" p0.flagKey

/-! ### String length bridge -/

theorem string_length_zero_iff (s : String) : s.length = 0 ↔ s = "" := by
  cases s with
  | mk data =>
    constructor
    · intro h
      have h2 : data = [] := List.length_eq_zero.mp h
      rw [h2]
    · intro h
      rw [h]
      decide

theorem string_pos_length (s : String) (h : s ≠ "") : 0 < s.length :=
  Nat.pos_of_ne_zero (fun h0 => h ((string_length_zero_iff s).mp h0))

/-! ### The claims -/

/-- Claim C8: for every Boolean-kind field and every source value, the
coercion performed by `setParam` is case-insensitive and maps exactly
the strings "0", "f", "false", "n", "no" (in any letter case, i.e. by
lower-cased comparison) to `false`, every other non-empty string to
`true`, and never fails. -/
theorem c8_boolean_coercion (p : Param) (b : Bool) (s t k : String)
    (hb : p.value = GoVal.vbool b) :
    (((setParam p s t k).1.value = GoVal.vbool false) ↔
      (goToLower s = "0" ∨ goToLower s = "f" ∨ goToLower s = "false" ∨
        goToLower s = "n" ∨ goToLower s = "no")) ∧
    ((s ≠ "" ∧ ¬(goToLower s = "0" ∨ goToLower s = "f" ∨ goToLower s = "false" ∨
        goToLower s = "n" ∨ goToLower s = "no")) →
      (setParam p s t k).1.value = GoVal.vbool true) ∧
    (setParam p s t k).2 = none := by
  obtain ⟨fn, ek, fk, pv, m, si⟩ := p
  simp only at hb
  subst hb
  refine ⟨?_, ?_, rfl⟩
  · simp [setParam]
    tauto
  · rintro ⟨hne, hnot⟩
    push_neg at hnot
    simp [setParam, hnot.1, hnot.2.1, hnot.2.2.1, hnot.2.2.2.1, hnot.2.2.2.2]

/-- Witness for C8: "No" (mixed case) coerces to `false`, "yes" to
`true`, at a concrete Boolean binding. -/
theorem c8_boolean_coercion_witness :
    ((setParam ⟨"", "ASYNC", "async", GoVal.vbool false, false, false⟩ "No"
      "environment variable" "ASYNC").1.value = GoVal.vbool false) ∧
    ((setParam ⟨"", "ASYNC", "async", GoVal.vbool false, false, false⟩ "yes"
      "environment variable" "ASYNC").1.value = GoVal.vbool true) :=
  ⟨(c8_boolean_coercion ⟨"", "ASYNC", "async", GoVal.vbool false, false, false⟩
      false "No" "environment variable" "ASYNC" rfl).1.mpr (by decide),
    (c8_boolean_coercion ⟨"", "ASYNC", "async", GoVal.vbool false, false, false⟩
      false "yes" "environment variable" "ASYNC" rfl).2.1 (by decide)⟩

/-- Claim C9: for every supported field, the derived `fileKey` equals
the explicit `file` annotation when one is present and a configuration
directory is supplied, else the lower-cased field name when the
directory is supplied; and when no directory is supplied it is empty,
regardless of any annotation. -/
theorem c9_fileKey_derivation (dir : String) (f : Field) (v : GoVal)
    (hv : f.value = some v) :
    ∃ p, discoverField dir f = some p ∧
      (dir ≠ "" → f.fileTag ≠ "" → p.filename = f.fileTag) ∧
      (dir ≠ "" → f.fileTag = "" → p.filename = goToLower f.name) ∧
      (dir = "" → p.filename = "") := by
  obtain ⟨p, hp, hfile, _⟩ := discoverField_eq dir f v hv
  refine ⟨p, hp, ?_, ?_, ?_⟩
  · intro h1 h2
    rw [hfile]
    simp [h1, h2]
  · intro h1 h2
    rw [hfile]
    simp [h1, h2]
  · intro h1
    rw [hfile]
    simp [h1]

/-- Witness for C9: all three clauses at concrete fields. -/
theorem c9_fileKey_derivation_witness :
    (∃ p, discoverField "/config"
        ⟨"RealParam", some (GoVal.vstr ""), "param", "", "", none, false⟩ = some p ∧
      p.filename = "param") ∧
    (∃ p, discoverField "/config"
        ⟨"Username", some (GoVal.vstr ""), "", "", "", none, false⟩ = some p ∧
      p.filename = "username") ∧
    (∃ p, discoverField ""
        ⟨"RealParam", some (GoVal.vstr ""), "param", "", "", none, false⟩ = some p ∧
      p.filename = "") := by
  refine ⟨?_, ?_, ?_⟩
  · obtain ⟨p, hp, h1, _, _⟩ := c9_fileKey_derivation "/config"
      ⟨"RealParam", some (GoVal.vstr ""), "param", "", "", none, false⟩
      (GoVal.vstr "") rfl
    exact ⟨p, hp, h1 (by decide) (by decide)⟩
  · obtain ⟨p, hp, _, h2, _⟩ := c9_fileKey_derivation "/config"
      ⟨"Username", some (GoVal.vstr ""), "", "", "", none, false⟩
      (GoVal.vstr "") rfl
    exact ⟨p, hp, (h2 (by decide) rfl).trans (by decide)⟩
  · obtain ⟨p, hp, _, _, h3⟩ := c9_fileKey_derivation ""
      ⟨"RealParam", some (GoVal.vstr ""), "param", "", "", none, false⟩
      (GoVal.vstr "") rfl
    exact ⟨p, hp, h3 rfl⟩

/-- Counterexample to claim C3: in a run whose environment variable
holds the non-numeric string "abc" for an Integer field, the coercion
fails (the run returns the coercion error), yet the binding ends with
`isSet = true` — the source assigns `isSet` before `strconv.Atoi`
runs, so a failed coercion attempt does set it. -/
theorem c3_isSet_failed_coercion_counterexample :
    (ParseWithDir [⟨"Age", some (GoVal.vint 0), "", "", "", none, true⟩] "" none
      (fun _ => ReadRes.notExist) []
      (fun k => if k = "AGE" then some "abc" else none)).bound[0]? =
      some ⟨"", "AGE", "age", GoVal.vint 0, true, true⟩ ∧
    (ParseWithDir [⟨"Age", some (GoVal.vint 0), "", "", "", none, true⟩] "" none
      (fun _ => ReadRes.notExist) []
      (fun k => if k = "AGE" then some "abc" else none)).outcome =
      Outcome.err "environment variable AGE must be an integer - instead it is: abc" := by
  constructor <;> rfl

/-- Claim C3 (amended): `isSet` starts false at discovery when no
default is declared, and is set to true by every coercion attempt on a
binding of a supported kind — including an Integer coercion attempt
that fails — rather than exactly by successful coercions. -/
theorem c3_isSet_amended :
    (∀ (p : Param) (val t k : String), ((setParam p val t k).1).isSet = true) ∧
    (∀ (dir : String) (f : Field) (p : Param), f.defaultTag = none →
      discoverField dir f = some p → p.isSet = false) := by
  constructor
  · exact setParam_isSet
  · intro dir f p hd hp
    cases hv : f.value with
    | none => unfold discoverField at hp; rw [hv] at hp; cases hp
    | some v =>
      obtain ⟨q, hq, _, _, _, _, _, hq6, _⟩ := discoverField_eq dir f v hv
      rw [hp] at hq
      cases hq
      exact hq6 hd

/-- Witness for C3 (amended): a failing Integer coercion attempt sets
`isSet`, and a discovered binding without default starts unset. -/
theorem c3_isSet_amended_witness :
    ((setParam ⟨"", "AGE", "age", GoVal.vint 0, true, false⟩ "abc"
      "environment variable" "AGE").1).isSet = true ∧
    (⟨"", "AGE", "age", GoVal.vint 0, true, false⟩ : Param).isSet = false :=
  ⟨c3_isSet_amended.1 ⟨"", "AGE", "age", GoVal.vint 0, true, false⟩ "abc"
      "environment variable" "AGE",
    c3_isSet_amended.2 "" ⟨"Age", some (GoVal.vint 0), "", "", "", none, true⟩
      ⟨"", "AGE", "age", GoVal.vint 0, true, false⟩ rfl rfl⟩

/-- Counterexample to claim C5: with a non-empty environment key that
is unset in the environment and a flag that IS supplied on the command
line, `RetrieveConfigDirectory` returns the fallback literal, not the
flag's value — the flag branch is never reached when an environment key
is given. -/
theorem c5_retrieveConfigDirectory_counterexample :
    RetrieveConfigDirectory (fun _ => none)
      (fun k => if k = "configdir" then some "/custom" else none)
      "CONFIGDIR" "configdir" "/config" = "/config" ∧
    RetrieveConfigDirectory (fun _ => none)
      (fun k => if k = "configdir" then some "/custom" else none)
      "CONFIGDIR" "configdir" "/config" ≠ "/custom" := by
  constructor <;> decide

/-- Claim C5 (amended): `RetrieveConfigDirectory` consults the flag
only when the environment KEY is empty.  With a non-empty environment
key, the result is the variable's value when non-empty and otherwise
the fallback literal, regardless of the flag; with an empty environment
key and a non-empty flag key, the result is the flag's value when
supplied, else the fallback; with both keys empty, the fallback. -/
theorem c5_retrieveConfigDirectory_amended (env flags : String → Option String)
    (envKey flagKey defaultval : String) :
    (envKey ≠ "" → (env envKey).getD "" = "" →
      RetrieveConfigDirectory env flags envKey flagKey defaultval = defaultval) ∧
    (envKey ≠ "" → (env envKey).getD "" ≠ "" →
      RetrieveConfigDirectory env flags envKey flagKey defaultval = (env envKey).getD "") ∧
    (envKey = "" → flagKey ≠ "" →
      RetrieveConfigDirectory env flags envKey flagKey defaultval =
        (flags flagKey).getD defaultval) ∧
    (envKey = "" → flagKey = "" →
      RetrieveConfigDirectory env flags envKey flagKey defaultval = defaultval) := by
  refine ⟨?_, ?_, ?_, ?_⟩
  · intro h1 h2
    have hp := string_pos_length envKey h1
    simp [RetrieveConfigDirectory, hp, h2]
  · intro h1 h2
    have hp := string_pos_length envKey h1
    have hv := Nat.pos_iff_ne_zero.mp (string_pos_length _ h2)
    simp [RetrieveConfigDirectory, hp, hv]
  · intro h1 h2
    have hp := string_pos_length flagKey h2
    simp [RetrieveConfigDirectory, h1, hp]
  · intro h1 h2
    simp [RetrieveConfigDirectory, h1, h2]

/-- Witness for C5 (amended): a set environment variable wins; with an
empty environment key the supplied flag wins. -/
theorem c5_retrieveConfigDirectory_amended_witness :
    RetrieveConfigDirectory (fun k => if k = "CONFIGDIR" then some "/fromenv" else none)
      (fun _ => none) "CONFIGDIR" "configdir" "/config" = "/fromenv" ∧
    RetrieveConfigDirectory (fun _ => none)
      (fun k => if k = "configdir" then some "/fromflag" else none)
      "" "configdir" "/config" = "/fromflag" := by
  constructor
  · have h := (c5_retrieveConfigDirectory_amended
      (fun k => if k = "CONFIGDIR" then some "/fromenv" else none) (fun _ => none)
      "CONFIGDIR" "configdir" "/config").2.1 (by decide) (by decide)
    rw [h]
    decide
  · have h := (c5_retrieveConfigDirectory_amended (fun _ => none)
      (fun k => if k = "configdir" then some "/fromflag" else none)
      "" "configdir" "/config").2.2.1 rfl (by decide)
    rw [h]
    decide

/-- Counterexample to claim C6: a non-empty but absent root does not
yield an empty mapping — `filepath.WalkDir` hands the callback a nil
entry plus the stat error, the callback dereferences the nil entry, and
the process dies (modelled as `none`). -/
theorem c6_allFiles_counterexample :
    allFilesInDirectory "/config" none = none ∧
    allFilesInDirectory "/config" none ≠ some [] := by
  constructor <;> decide

/-- Claim C6 (amended): for an empty root path the traversal returns an
empty mapping; for a present root it returns a mapping from file base
name to full path that contains only the tree's regular files (found
recursively) and covers every one of them; but for a non-empty ABSENT
root it does not return at all — the walk callback dereferences a nil
directory entry and the process terminates. -/
theorem c6_allFiles_amended :
    (∀ root, allFilesInDirectory "" root = some []) ∧
    (∀ dir, dir ≠ "" → allFilesInDirectory dir none = none) ∧
    (∀ (dir : String) (es : List Entry), dir ≠ "" →
      ∃ m, allFilesInDirectory dir (some es) = some m ∧
        (∀ kv ∈ m, kv ∈ specTraversalFiles dir es) ∧
        (∀ kv ∈ specTraversalFiles dir es, ∃ p, (kv.1, p) ∈ m)) := by
  refine ⟨?_, ?_, ?_⟩
  · intro root
    rfl
  · intro dir h
    simp [allFilesInDirectory, h]
  · intro dir es h
    refine ⟨walkEntries dir es [], by simp [allFilesInDirectory, h], ?_, ?_⟩
    · intro kv hkv
      rcases walkEntries_mem dir es [] kv hkv with h1 | h1
      · simp at h1
      · exact h1
    · intro kv hkv
      refine walkEntries_covers dir es [] kv.1 (Or.inr ⟨kv.2, ?_⟩)
      rwa [Prod.mk.eta]

/-- Witness for C6 (amended): the three clauses at an empty root, an
absent root, and a two-level tree. -/
theorem c6_allFiles_amended_witness :
    allFilesInDirectory "" none = some [] ∧
    allFilesInDirectory "/cfg" none = none ∧
    (∃ m, allFilesInDirectory "/cfg"
        (some [Entry.file "username" "admin",
          Entry.dir "sub" [Entry.file "maxretries" "5"]]) = some m ∧
      (∀ kv ∈ m, kv ∈ specTraversalFiles "/cfg"
        [Entry.file "username" "admin",
          Entry.dir "sub" [Entry.file "maxretries" "5"]]) ∧
      (∀ kv ∈ specTraversalFiles "/cfg"
        [Entry.file "username" "admin",
          Entry.dir "sub" [Entry.file "maxretries" "5"]], ∃ p, (kv.1, p) ∈ m)) :=
  ⟨c6_allFiles_amended.1 none,
    c6_allFiles_amended.2.1 "/cfg" (by decide),
    c6_allFiles_amended.2.2 "/cfg"
      [Entry.file "username" "admin", Entry.dir "sub" [Entry.file "maxretries" "5"]]
      (by decide)⟩

/-- Counterexample to claim C2: on the early-return path taken when an
environment value fails Integer coercion, `ParseWithDir` returns the
coercion error WITHOUT clearing the process-wide `params` slice — the
`params = []*param{}` reassignment sits after the resolution loop and
is skipped by the loop's `return err`. -/
theorem c2_globalParams_counterexample :
    (ParseWithDir [⟨"Port", some (GoVal.vint 0), "", "", "", none, false⟩] "" none
      (fun _ => ReadRes.notExist) []
      (fun k => if k = "PORT" then some "abc" else none)).outcome =
      Outcome.err "environment variable PORT must be an integer - instead it is: abc" ∧
    (ParseWithDir [⟨"Port", some (GoVal.vint 0), "", "", "", none, false⟩] "" none
      (fun _ => ReadRes.notExist) []
      (fun k => if k = "PORT" then some "abc" else none)).globalParams ≠ [] := by
  constructor <;> decide

/-- Claim C2 (amended): the process-wide `params` slice is cleared
before return exactly on the paths that complete the resolution loop
(success or mandatory check); on the resolution loop's early-return
error paths (file read failure or file/environment coercion failure)
the invocation returns with the slice still populated.  A later
invocation is still rebuilt from a fresh empty slice at entry, so the
leak does not feed the next run's discovery. -/
theorem c2_globalParams_amended :
    (∀ (fields : List Field) (dir : String) (root : Option (List Entry))
        (rf : String → ReadRes) (args : List (String × String))
        (env : String → Option String) (cf : List (String × String))
        (ps1 ps2 : List Param),
      allFilesInDirectory dir root = some cf →
      flagParse args (discoverParams dir fields) = (ps1, true) →
      resolveParams cf rf env ps1 = (ps2, none) →
      (ParseWithDir fields dir root rf args env).globalParams = []) ∧
    (∀ (fields : List Field) (dir : String) (root : Option (List Entry))
        (rf : String → ReadRes) (args : List (String × String))
        (env : String → Option String) (cf : List (String × String))
        (ps1 ps2 : List Param) (e : String),
      allFilesInDirectory dir root = some cf →
      flagParse args (discoverParams dir fields) = (ps1, true) →
      resolveParams cf rf env ps1 = (ps2, some e) →
      (ParseWithDir fields dir root rf args env).globalParams = ps2 ∧
      (ParseWithDir fields dir root rf args env).globalParams ≠ []) := by
  constructor
  · intro fields dir root rf args env cf ps1 ps2 hcf hfp hrr
    rw [parseWithDir_of_resolved fields dir root rf args env cf ps1 ps2 hcf hfp hrr]
    exact bindAfterResolution_global ps2
  · intro fields dir root rf args env cf ps1 ps2 e hcf hfp hrr
    rw [parseWithDir_err_of_resolveErr fields dir root rf args env cf ps1 ps2 e hcf
      hfp hrr]
    refine ⟨rfl, ?_⟩
    have h2 : (resolveParams cf rf env ps1).2 = some e := by rw [hrr]
    have h := resolveParams_ne_nil_of_err cf rf env ps1 e h2
    rw [hrr] at h
    exact h

/-- Witness for C2 (amended): a run with no sources clears the slice;
a run failing environment coercion leaves it populated. -/
theorem c2_globalParams_amended_witness :
    (ParseWithDir [⟨"Port", some (GoVal.vint 0), "", "", "", none, false⟩] "" none
      (fun _ => ReadRes.notExist) [] (fun _ => none)).globalParams = [] ∧
    (ParseWithDir [⟨"Host", some (GoVal.vint 0), "", "", "", none, false⟩] "" none
      (fun _ => ReadRes.notExist) []
      (fun k => if k = "HOST" then some "xyz" else none)).globalParams =
      [⟨"", "HOST", "host", GoVal.vint 0, false, true⟩] :=
  ⟨c2_globalParams_amended.1
      [⟨"Port", some (GoVal.vint 0), "", "", "", none, false⟩] "" none
      (fun _ => ReadRes.notExist) [] (fun _ => none) []
      [⟨"", "PORT", "port", GoVal.vint 0, false, false⟩]
      [⟨"", "PORT", "port", GoVal.vint 0, false, false⟩] rfl rfl rfl,
    (c2_globalParams_amended.2
      [⟨"Host", some (GoVal.vint 0), "", "", "", none, false⟩] "" none
      (fun _ => ReadRes.notExist) []
      (fun k => if k = "HOST" then some "xyz" else none) []
      [⟨"", "HOST", "host", GoVal.vint 0, false, false⟩]
      [⟨"", "HOST", "host", GoVal.vint 0, false, true⟩]
      "environment variable HOST must be an integer - instead it is: xyz"
      rfl rfl rfl).1⟩

/-- Claim C7: when the resolution loop completes and N > 0 mandatory
bindings are left unset, `ParseWithDir` emits exactly N lines (one per
missing binding, naming its flag key and environment key via
`missingLine`), calls `flag.Usage`, and returns the single error
reporting the count N. -/
theorem c7_mandatory_aggregation (fields : List Field) (dir : String)
    (root : Option (List Entry)) (rf : String → ReadRes)
    (args : List (String × String)) (env : String → Option String)
    (cf : List (String × String)) (ps1 ps2 : List Param)
    (hcf : allFilesInDirectory dir root = some cf)
    (hfp : flagParse args (discoverParams dir fields) = (ps1, true))
    (hrr : resolveParams cf rf env ps1 = (ps2, none))
    (hn : 0 < (ps2.filter isMissing).length) :
    (ParseWithDir fields dir root rf args env).lines =
      (ps2.filter isMissing).map missingLine ∧
    (ParseWithDir fields dir root rf args env).lines.length =
      (ps2.filter isMissing).length ∧
    (ParseWithDir fields dir root rf args env).usageCalled = true ∧
    (ParseWithDir fields dir root rf args env).outcome =
      Outcome.err (toString (ps2.filter isMissing).length ++
        " mandatory parameters missing") := by
  rw [parseWithDir_of_resolved fields dir root rf args env cf ps1 ps2 hcf hfp hrr]
  have hlen : (List.filter isMissing ps2).length ≠ 0 := Nat.pos_iff_ne_zero.mp hn
  simp [bindAfterResolution, hlen]

/-- Witness for C7: two missing mandatory fields yield two lines, the
usage call, and the error "2 mandatory parameters missing". -/
theorem c7_mandatory_aggregation_witness :
    (ParseWithDir [⟨"Name", some (GoVal.vstr ""), "", "", "", none, true⟩,
        ⟨"Age", some (GoVal.vint 0), "", "", "", none, true⟩] "" none
      (fun _ => ReadRes.notExist) [] (fun _ => none)).lines =
      ["Mandatory flag -name (or environment variable NAME) does not exist.",
        "Mandatory flag -age (or environment variable AGE) does not exist."] ∧
    (ParseWithDir [⟨"Name", some (GoVal.vstr ""), "", "", "", none, true⟩,
        ⟨"Age", some (GoVal.vint 0), "", "", "", none, true⟩] "" none
      (fun _ => ReadRes.notExist) [] (fun _ => none)).lines.length = 2 ∧
    (ParseWithDir [⟨"Name", some (GoVal.vstr ""), "", "", "", none, true⟩,
        ⟨"Age", some (GoVal.vint 0), "", "", "", none, true⟩] "" none
      (fun _ => ReadRes.notExist) [] (fun _ => none)).usageCalled = true ∧
    (ParseWithDir [⟨"Name", some (GoVal.vstr ""), "", "", "", none, true⟩,
        ⟨"Age", some (GoVal.vint 0), "", "", "", none, true⟩] "" none
      (fun _ => ReadRes.notExist) [] (fun _ => none)).outcome =
      Outcome.err "2 mandatory parameters missing" := by
  have h := c7_mandatory_aggregation
    [⟨"Name", some (GoVal.vstr ""), "", "", "", none, true⟩,
      ⟨"Age", some (GoVal.vint 0), "", "", "", none, true⟩] "" none
    (fun _ => ReadRes.notExist) [] (fun _ => none) []
    [⟨"", "NAME", "name", GoVal.vstr "", true, false⟩,
      ⟨"", "AGE", "age", GoVal.vint 0, true, false⟩]
    [⟨"", "NAME", "name", GoVal.vstr "", true, false⟩,
      ⟨"", "AGE", "age", GoVal.vint 0, true, false⟩]
    rfl rfl rfl (by decide)
  refine ⟨h.1.trans (by decide), h.2.1.trans (by decide), h.2.2.1, h.2.2.2.trans ?_⟩
  decide

/-- Claim C10: a supported field carrying both a `mandatory` and a
`default` annotation is marked set (`isSet = true`) when the default is
applied at registration, and therefore is never among the missing
mandatory bindings at the end of any run, whatever the file tree,
environment, and command line provide. -/
theorem c10_default_marks_mandatory_set (fields : List Field) (dir : String)
    (root : Option (List Entry)) (rf : String → ReadRes)
    (args : List (String × String)) (env : String → Option String)
    (cf : List (String × String)) (i : Nat) (f : Field) (v : GoVal) (d : String)
    (hcf : allFilesInDirectory dir root = some cf)
    (hf : fields[i]? = some f)
    (hv : f.value = some v)
    (hd : f.defaultTag = some d)
    (hm : f.mandatoryTag = true) :
    ∃ (j : Nat) (q : Param), (ParseWithDir fields dir root rf args env).bound[j]? = some q ∧
      q.mandatory = true ∧ q.isSet = true ∧ isMissing q = false ∧
      q ∉ (ParseWithDir fields dir root rf args env).bound.filter isMissing := by
  obtain ⟨p0, hp0, _, _, _, hman, _, _, hset⟩ := discoverField_eq dir f v hv
  have hp0set : p0.isSet = true := hset d hd
  have hp0man : p0.mandatory = true := by rw [hman, hm]
  have hmem : p0 ∈ discoverParams dir fields :=
    List.mem_filterMap.mpr ⟨f, List.getElem?_mem hf, hp0⟩
  obtain ⟨j, hj⟩ := List.getElem?_of_mem hmem
  have hev := parseWithDir_bound_evolves fields dir root rf args env cf hcf
  obtain ⟨q, hq, hqev⟩ := forall2_getElem? hev hj
  have hqset : q.isSet = true := hqev.2.2.2.2.2 hp0set
  refine ⟨j, q, hq, ?_, hqset, ?_, ?_⟩
  · rw [hqev.2.2.2.1, hp0man]
  · simp [isMissing, hqset]
  · intro hcontra
    have h2 := List.mem_filter.mp hcontra
    simp [isMissing, hqset] at h2

/-- Witness for C10: a mandatory Integer field with default "8080" and
no file/environment/flag source ends set and absent from the missing
list. -/
theorem c10_default_marks_mandatory_set_witness :
    ∃ (j : Nat) (q : Param),
      (ParseWithDir [⟨"Port", some (GoVal.vint 0), "", "", "", some "8080", true⟩]
      "" none (fun _ => ReadRes.notExist) [] (fun _ => none)).bound[j]? = some q ∧
      q.mandatory = true ∧ q.isSet = true ∧ isMissing q = false ∧
      q ∉ (ParseWithDir [⟨"Port", some (GoVal.vint 0), "", "", "", some "8080", true⟩]
        "" none (fun _ => ReadRes.notExist) [] (fun _ => none)).bound.filter isMissing :=
  c10_default_marks_mandatory_set
    [⟨"Port", some (GoVal.vint 0), "", "", "", some "8080", true⟩] "" none
    (fun _ => ReadRes.notExist) [] (fun _ => none) [] 0
    ⟨"Port", some (GoVal.vint 0), "", "", "", some "8080", true⟩
    (GoVal.vint 0) "8080" rfl rfl rfl rfl rfl

/-- Claim C1: after a successful `ParseWithDir` run, each binding holds
the value of its highest-precedence present source (file > environment
variable > command-line flag): with file, environment, and flag values
all present the bound value is the coerced file contents; with only
environment and flag values present it is the coerced environment
value. -/
theorem c1_precedence :
    (∀ (fields : List Field) (dir : String) (root : Option (List Entry))
        (rf : String → ReadRes) (args : List (String × String))
        (env : String → Option String) (cf : List (String × String))
        (i : Nat) (p0 : Param) (path contents ev fv : String),
      allFilesInDirectory dir root = some cf →
      (discoverParams dir fields)[i]? = some p0 →
      p0.filename ≠ "" →
      mapLookup cf p0.filename = some path →
      rf path = ReadRes.ok contents →
      env p0.envKey = some ev →
      (p0.flagKey, fv) ∈ args →
      (ParseWithDir fields dir root rf args env).outcome = Outcome.ok →
      ∃ q : Param, (ParseWithDir fields dir root rf args env).bound[i]? = some q ∧
        coerceValue p0.value.kind contents = some q.value) ∧
    (∀ (fields : List Field) (dir : String) (root : Option (List Entry))
        (rf : String → ReadRes) (args : List (String × String))
        (env : String → Option String) (cf : List (String × String))
        (i : Nat) (p0 : Param) (ev fv : String),
      allFilesInDirectory dir root = some cf →
      (discoverParams dir fields)[i]? = some p0 →
      (p0.filename = "" ∨ mapLookup cf p0.filename = none ∨
        (∃ path, mapLookup cf p0.filename = some path ∧ rf path = ReadRes.notExist)) →
      env p0.envKey = some ev →
      (p0.flagKey, fv) ∈ args →
      (ParseWithDir fields dir root rf args env).outcome = Outcome.ok →
      ∃ q : Param, (ParseWithDir fields dir root rf args env).bound[i]? = some q ∧
        coerceValue p0.value.kind ev = some q.value) := by
  constructor
  · intro fields dir root rf args env cf i p0 path contents ev fv hcf hp0 hfn hlook
      hread henv hflag hok
    rcases hfp : flagParse args (discoverParams dir fields) with ⟨ps1, b⟩
    cases b with
    | false =>
      rw [parseWithDir_exit_of_flagFail fields dir root rf args env cf ps1 hcf hfp]
        at hok
      simp at hok
    | true =>
      rcases hrr : resolveParams cf rf env ps1 with ⟨ps2, eo⟩
      cases eo with
      | some e =>
        rw [parseWithDir_err_of_resolveErr fields dir root rf args env cf ps1 ps2 e
          hcf hfp hrr] at hok
        simp at hok
      | none =>
        rw [parseWithDir_of_resolved fields dir root rf args env cf ps1 ps2 hcf hfp hrr,
          bindAfterResolution_bound]
        have hevol : List.Forall₂ paramEvolves (discoverParams dir fields) ps1 := by
          have h := flagParse_evolves args (discoverParams dir fields)
          rwa [hfp] at h
        obtain ⟨p1, hp1, hev⟩ := forall2_getElem? hevol hp0
        have h2 : (resolveParams cf rf env ps1).2 = none := by rw [hrr]
        obtain ⟨hmap, hall⟩ := resolveParams_none_map cf rf env ps1 h2
        rw [hrr] at hmap
        have hmap2 : ps2 = ps1.map (fun p => (resolveParam cf rf env p).1) := by
          simpa using hmap
        have herrnone : (resolveParam cf rf env p1).2 = none :=
          hall p1 (List.getElem?_mem hp1)
        have hres : resolveParam cf rf env p1 = setParam p1 contents "file" p1.filename :=
          resolveParam_file cf rf env p1 path contents (by rw [hev.1]; exact hfn)
            (by rw [hev.1]; exact hlook) hread
        rw [hres] at herrnone
        have hco := coerce_of_setParam_none p1 contents "file" p1.filename herrnone
        refine ⟨(resolveParam cf rf env p1).1, ?_, ?_⟩
        · rw [hmap2]
          simp [List.getElem?_map, hp1]
        · rw [← hev.2.2.2.2.1, hco, hres]
  · intro fields dir root rf args env cf i p0 ev fv hcf hp0 hnofile henv hflag hok
    rcases hfp : flagParse args (discoverParams dir fields) with ⟨ps1, b⟩
    cases b with
    | false =>
      rw [parseWithDir_exit_of_flagFail fields dir root rf args env cf ps1 hcf hfp]
        at hok
      simp at hok
    | true =>
      rcases hrr : resolveParams cf rf env ps1 with ⟨ps2, eo⟩
      cases eo with
      | some e =>
        rw [parseWithDir_err_of_resolveErr fields dir root rf args env cf ps1 ps2 e
          hcf hfp hrr] at hok
        simp at hok
      | none =>
        rw [parseWithDir_of_resolved fields dir root rf args env cf ps1 ps2 hcf hfp
          hrr, bindAfterResolution_bound]
        have hevol : List.Forall₂ paramEvolves (discoverParams dir fields) ps1 := by
          have h := flagParse_evolves args (discoverParams dir fields)
          rwa [hfp] at h
        obtain ⟨p1, hp1, hev⟩ := forall2_getElem? hevol hp0
        have h2 : (resolveParams cf rf env ps1).2 = none := by rw [hrr]
        obtain ⟨hmap, hall⟩ := resolveParams_none_map cf rf env ps1 h2
        rw [hrr] at hmap
        have hmap2 : ps2 = ps1.map (fun p => (resolveParam cf rf env p).1) := by
          simpa using hmap
        have herrnone : (resolveParam cf rf env p1).2 = none :=
          hall p1 (List.getElem?_mem hp1)
        have hres : resolveParam cf rf env p1 =
            setParam p1 ev "environment variable" p1.envKey := by
          rw [resolveParam_envStep cf rf env p1 (by rw [hev.1]; exact hnofile)]
          exact envStep_some env p1 ev (by rw [hev.2.1]; exact henv)
        rw [hres] at herrnone
        have hco := coerce_of_setParam_none p1 ev "environment variable" p1.envKey
          herrnone
        refine ⟨(resolveParam cf rf env p1).1, ?_, ?_⟩
        · rw [hmap2]
          simp [List.getElem?_map, hp1]
        · rw [← hev.2.2.2.2.1, hco, hres]

/-- Witness for C1: a run where file, environment, and flag all supply
the field yields the file contents, and a run with environment and flag
only yields the environment value. -/
theorem c1_precedence_witness :
    (∃ q : Param, (ParseWithDir [⟨"Host", some (GoVal.vstr ""), "", "", "", none, false⟩]
        "/etc/app" (some [Entry.file "host" "filehost"])
        (fun p => if p = "/etc/app/host" then ReadRes.ok "filehost" else ReadRes.notExist)
        [("host", "flaghost")]
        (fun k => if k = "HOST" then some "envhost" else none)).bound[0]? = some q ∧
      coerceValue GoKind.kString "filehost" = some q.value) ∧
    (∃ q : Param, (ParseWithDir [⟨"Host", some (GoVal.vstr ""), "", "", "", none, false⟩]
        "" none (fun _ => ReadRes.notExist) [("host", "flaghost")]
        (fun k => if k = "HOST" then some "envhost" else none)).bound[0]? = some q ∧
      coerceValue GoKind.kString "envhost" = some q.value) := by
  constructor
  · have hcf : allFilesInDirectory "/etc/app" (some [Entry.file "host" "filehost"]) =
        some [("host", "/etc/app/host")] := by
      simp [allFilesInDirectory, walkEntries, mapInsert, joinPath]
    have hok : (ParseWithDir [⟨"Host", some (GoVal.vstr ""), "", "", "", none, false⟩]
        "/etc/app" (some [Entry.file "host" "filehost"])
        (fun p => if p = "/etc/app/host" then ReadRes.ok "filehost" else ReadRes.notExist)
        [("host", "flaghost")]
        (fun k => if k = "HOST" then some "envhost" else none)).outcome = Outcome.ok := by
      rw [parseWithDir_of_resolved
        [⟨"Host", some (GoVal.vstr ""), "", "", "", none, false⟩] "/etc/app"
        (some [Entry.file "host" "filehost"])
        (fun p => if p = "/etc/app/host" then ReadRes.ok "filehost" else ReadRes.notExist)
        [("host", "flaghost")] (fun k => if k = "HOST" then some "envhost" else none)
        [("host", "/etc/app/host")]
        [⟨"host", "HOST", "host", GoVal.vstr "flaghost", false, true⟩]
        [⟨"host", "HOST", "host", GoVal.vstr "filehost", false, true⟩]
        hcf (by decide) (by decide)]
      decide
    exact c1_precedence.1 [⟨"Host", some (GoVal.vstr ""), "", "", "", none, false⟩]
      "/etc/app" (some [Entry.file "host" "filehost"])
      (fun p => if p = "/etc/app/host" then ReadRes.ok "filehost" else ReadRes.notExist)
      [("host", "flaghost")] (fun k => if k = "HOST" then some "envhost" else none)
      [("host", "/etc/app/host")] 0
      ⟨"host", "HOST", "host", GoVal.vstr "", false, false⟩
      "/etc/app/host" "filehost" "envhost" "flaghost"
      hcf (by decide) (by decide) (by decide) (by decide) (by decide)
      (by decide) hok
  · exact c1_precedence.2 [⟨"Host", some (GoVal.vstr ""), "", "", "", none, false⟩]
      "" none (fun _ => ReadRes.notExist) [("host", "flaghost")]
      (fun k => if k = "HOST" then some "envhost" else none) [] 0
      ⟨"", "HOST", "host", GoVal.vstr "", false, false⟩ "envhost" "flaghost"
      (by decide) (by decide) (Or.inl (by decide)) (by decide) (by decide) (by decide)

/-- Counterexample to claim C4: a non-numeric command-line value for an
Integer field does NOT make the bind call fail with the coercion error —
the registry's default `ExitOnError` policy terminates the process
during `flag.Parse()` (whose return value `ParseWithDir` ignores), so no
error naming the source and key is ever returned. -/
theorem c4_flag_coercion_counterexample :
    (ParseWithDir [⟨"Port", some (GoVal.vint 0), "", "", "", none, false⟩] "" none
      (fun _ => ReadRes.notExist) [("port", "abc")] (fun _ => none)).outcome =
      Outcome.exit ∧
    (ParseWithDir [⟨"Port", some (GoVal.vint 0), "", "", "", none, false⟩] "" none
      (fun _ => ReadRes.notExist) [("port", "abc")] (fun _ => none)).outcome ≠
      Outcome.err (mustBeIntegerMsg "command line flag" "port" "abc") := by
  constructor <;> decide

/-- Claim C4 (amended): a non-numeric string for an Integer field from
the FILE or ENVIRONMENT source makes `ParseWithDir` return the
descriptive "must be an integer" error naming that source kind and key,
before any missing-mandatory line or usage output; for the
COMMAND-LINE-FLAG source the coercion error is consumed by the flag
registry, whose default policy exits the process during flag parsing —
`ParseWithDir` never returns a flag coercion error. -/
theorem c4_integer_coercion_amended :
    (∀ (fields : List Field) (dir : String) (root : Option (List Entry))
        (rf : String → ReadRes) (args : List (String × String))
        (env : String → Option String) (cf : List (String × String))
        (i : Nat) (p0 : Param) (path s : String),
      allFilesInDirectory dir root = some cf →
      (flagParse args (discoverParams dir fields)).2 = true →
      (discoverParams dir fields)[i]? = some p0 →
      p0.value.kind = GoKind.kInt →
      p0.filename ≠ "" →
      mapLookup cf p0.filename = some path →
      rf path = ReadRes.ok s →
      Atoi s = none →
      (∀ j q, j < i → (flagParse args (discoverParams dir fields)).1[j]? = some q →
        (resolveParam cf rf env q).2 = none) →
      (ParseWithDir fields dir root rf args env).outcome =
        Outcome.err (mustBeIntegerMsg "file" p0.filename s) ∧
      (ParseWithDir fields dir root rf args env).lines = [] ∧
      (ParseWithDir fields dir root rf args env).usageCalled = false) ∧
    (∀ (fields : List Field) (dir : String) (root : Option (List Entry))
        (rf : String → ReadRes) (args : List (String × String))
        (env : String → Option String) (cf : List (String × String))
        (i : Nat) (p0 : Param) (s : String),
      allFilesInDirectory dir root = some cf →
      (flagParse args (discoverParams dir fields)).2 = true →
      (discoverParams dir fields)[i]? = some p0 →
      p0.value.kind = GoKind.kInt →
      (p0.filename = "" ∨ mapLookup cf p0.filename = none ∨
        (∃ path, mapLookup cf p0.filename = some path ∧ rf path = ReadRes.notExist)) →
      env p0.envKey = some s →
      Atoi s = none →
      (∀ j q, j < i → (flagParse args (discoverParams dir fields)).1[j]? = some q →
        (resolveParam cf rf env q).2 = none) →
      (ParseWithDir fields dir root rf args env).outcome =
        Outcome.err (mustBeIntegerMsg "environment variable" p0.envKey s) ∧
      (ParseWithDir fields dir root rf args env).lines = [] ∧
      (ParseWithDir fields dir root rf args env).usageCalled = false) ∧
    (∀ (fields : List Field) (dir : String) (root : Option (List Entry))
        (rf : String → ReadRes) (args : List (String × String))
        (env : String → Option String) (cf : List (String × String))
        (k v : String),
      allFilesInDirectory dir root = some cf →
      (k, v) ∈ args →
      Atoi v = none →
      (∃ p ∈ discoverParams dir fields, p.flagKey = k) →
      (∀ p ∈ discoverParams dir fields, p.flagKey = k →
        p.value.kind = GoKind.kInt) →
      (ParseWithDir fields dir root rf args env).outcome = Outcome.exit ∧
      (ParseWithDir fields dir root rf args env).lines = [] ∧
      (ParseWithDir fields dir root rf args env).usageCalled = false) := by
  refine ⟨?_, ?_, ?_⟩
  · intro fields dir root rf args env cf i p0 path s hcf htrue hp0 hkind hfn hlook
      hread hA hbefore
    rcases hfp : flagParse args (discoverParams dir fields) with ⟨ps1, b⟩
    rw [hfp] at htrue hbefore
    subst htrue
    have hevol : List.Forall₂ paramEvolves (discoverParams dir fields) ps1 := by
      have h := flagParse_evolves args (discoverParams dir fields)
      rwa [hfp] at h
    obtain ⟨p1, hp1, hev⟩ := forall2_getElem? hevol hp0
    have hres : resolveParam cf rf env p1 = setParam p1 s "file" p1.filename :=
      resolveParam_file cf rf env p1 path s (by rw [hev.1]; exact hfn)
        (by rw [hev.1]; exact hlook) hread
    have hcoerce : coerceValue p1.value.kind s = none := by
      rw [hev.2.2.2.2.1, hkind]
      simp [coerceValue, hA]
    have herr : (resolveParam cf rf env p1).2 =
        some (mustBeIntegerMsg "file" p0.filename s) := by
      rw [hres, setParam_eq_of_coerce_none p1 s "file" p1.filename hcoerce, hev.1]
    have hrr2 : (resolveParams cf rf env ps1).2 =
        some (mustBeIntegerMsg "file" p0.filename s) :=
      resolveParams_err_at cf rf env ps1 i p1 _ hp1 hbefore herr
    rcases hrr : resolveParams cf rf env ps1 with ⟨ps2, eo⟩
    rw [hrr] at hrr2
    simp only at hrr2
    subst hrr2
    rw [parseWithDir_err_of_resolveErr fields dir root rf args env cf ps1 ps2 _ hcf
      hfp hrr]
    exact ⟨rfl, rfl, rfl⟩
  · intro fields dir root rf args env cf i p0 s hcf htrue hp0 hkind hnofile henv hA
      hbefore
    rcases hfp : flagParse args (discoverParams dir fields) with ⟨ps1, b⟩
    rw [hfp] at htrue hbefore
    subst htrue
    have hevol : List.Forall₂ paramEvolves (discoverParams dir fields) ps1 := by
      have h := flagParse_evolves args (discoverParams dir fields)
      rwa [hfp] at h
    obtain ⟨p1, hp1, hev⟩ := forall2_getElem? hevol hp0
    have hres : resolveParam cf rf env p1 =
        setParam p1 s "environment variable" p1.envKey := by
      rw [resolveParam_envStep cf rf env p1 (by rw [hev.1]; exact hnofile)]
      exact envStep_some env p1 s (by rw [hev.2.1]; exact henv)
    have hcoerce : coerceValue p1.value.kind s = none := by
      rw [hev.2.2.2.2.1, hkind]
      simp [coerceValue, hA]
    have herr : (resolveParam cf rf env p1).2 =
        some (mustBeIntegerMsg "environment variable" p0.envKey s) := by
      rw [hres, setParam_eq_of_coerce_none p1 s "environment variable" p1.envKey
        hcoerce, hev.2.1]
    have hrr2 : (resolveParams cf rf env ps1).2 =
        some (mustBeIntegerMsg "environment variable" p0.envKey s) :=
      resolveParams_err_at cf rf env ps1 i p1 _ hp1 hbefore herr
    rcases hrr : resolveParams cf rf env ps1 with ⟨ps2, eo⟩
    rw [hrr] at hrr2
    simp only at hrr2
    subst hrr2
    rw [parseWithDir_err_of_resolveErr fields dir root rf args env cf ps1 ps2 _ hcf
      hfp hrr]
    exact ⟨rfl, rfl, rfl⟩
  · intro fields dir root rf args env cf k v hcf hin hA hmem hkind
    have hfail := flagParse_int_fail args (discoverParams dir fields) k v hin hmem
      hkind hA
    rcases hfp : flagParse args (discoverParams dir fields) with ⟨ps1, b⟩
    rw [hfp] at hfail
    simp only at hfail
    subst hfail
    rw [parseWithDir_exit_of_flagFail fields dir root rf args env cf ps1 hcf hfp]
    exact ⟨rfl, rfl, rfl⟩

/-- Witness for C4 (amended): a file containing "abc" for an Integer
field aborts the run with the file-coercion error and no mandatory
output; a non-numeric flag value makes the run exit inside the
registry. -/
theorem c4_integer_coercion_amended_witness :
    ((ParseWithDir [⟨"MaxRetries", some (GoVal.vint 0), "", "", "", none, false⟩]
        "/cfg" (some [Entry.file "maxretries" "abc"])
        (fun p => if p = "/cfg/maxretries" then ReadRes.ok "abc" else ReadRes.notExist)
        [] (fun _ => none)).outcome =
      Outcome.err (mustBeIntegerMsg "file" "maxretries" "abc") ∧
      (ParseWithDir [⟨"MaxRetries", some (GoVal.vint 0), "", "", "", none, false⟩]
        "/cfg" (some [Entry.file "maxretries" "abc"])
        (fun p => if p = "/cfg/maxretries" then ReadRes.ok "abc" else ReadRes.notExist)
        [] (fun _ => none)).lines = [] ∧
      (ParseWithDir [⟨"MaxRetries", some (GoVal.vint 0), "", "", "", none, false⟩]
        "/cfg" (some [Entry.file "maxretries" "abc"])
        (fun p => if p = "/cfg/maxretries" then ReadRes.ok "abc" else ReadRes.notExist)
        [] (fun _ => none)).usageCalled = false) ∧
    ((ParseWithDir [⟨"Retries", some (GoVal.vint 0), "", "", "", none, false⟩] "" none
        (fun _ => ReadRes.notExist) [("retries", "xyz")] (fun _ => none)).outcome =
      Outcome.exit ∧
      (ParseWithDir [⟨"Retries", some (GoVal.vint 0), "", "", "", none, false⟩] "" none
        (fun _ => ReadRes.notExist) [("retries", "xyz")] (fun _ => none)).lines = [] ∧
      (ParseWithDir [⟨"Retries", some (GoVal.vint 0), "", "", "", none, false⟩] "" none
        (fun _ => ReadRes.notExist) [("retries", "xyz")] (fun _ => none)).usageCalled =
        false) := by
  constructor
  · have hcf : allFilesInDirectory "/cfg" (some [Entry.file "maxretries" "abc"]) =
        some [("maxretries", "/cfg/maxretries")] := by
      simp [allFilesInDirectory, walkEntries, mapInsert, joinPath]
    exact c4_integer_coercion_amended.1
      [⟨"MaxRetries", some (GoVal.vint 0), "", "", "", none, false⟩] "/cfg"
      (some [Entry.file "maxretries" "abc"])
      (fun p => if p = "/cfg/maxretries" then ReadRes.ok "abc" else ReadRes.notExist)
      [] (fun _ => none) [("maxretries", "/cfg/maxretries")] 0
      ⟨"maxretries", "MAXRETRIES", "maxretries", GoVal.vint 0, false, false⟩
      "/cfg/maxretries" "abc" hcf rfl (by decide) rfl (by decide) (by decide)
      (by decide) (by decide)
      (fun j q hj _ => absurd hj (Nat.not_lt_zero j))
  · exact c4_integer_coercion_amended.2.2
      [⟨"Retries", some (GoVal.vint 0), "", "", "", none, false⟩] "" none
      (fun _ => ReadRes.notExist) [("retries", "xyz")] (fun _ => none) []
      "retries" "xyz" rfl (by decide) (by decide) (by decide) (by decide)

end Configparser
